import Mathlib

/-!
Verification of the ticker coverage/statistics engine and the store
utilities of the `trading_signal_ai` repository.

The embedding is shallow:
* dates are day indexes (`Nat`), order-isomorphic to the ISO-8601 strings
  the store keeps (the repository compares dates lexicographically, which
  agrees with calendar order);
* the price store (`ohlcv` table) is a list of rows whose fields may be
  NULL (`Option`);
* the per-ticker record sequences fed to the coverage engine use concrete
  fields, since the engine is only invoked on rows of one ticker;
* Python float division is modelled by exact rational division (`Rat`),
  and `int(...)` on a non-negative value by the rational floor;
* the current clock (`datetime.now()`) is an injected parameter.
-/

/-- A raw row of the `ohlcv` table.  Every field is nullable at the store
level; `check_for_null_values` (clean_database.py) scans for NULLs. -/
structure Row where
  ticker : Option String
  date : Option Nat
  open_ : Option Rat
  high : Option Rat
  low : Option Rat
  close : Option Rat
  volume : Option Int
deriving DecidableEq, Repr

/-- A row is incomplete when any of the seven required fields is NULL,
mirroring the WHERE clause of the null-check query
(clean_database.py lines 67-73). -/
def isIncomplete (r : Row) : Bool :=
  r.ticker.isNone || r.date.isNone || r.open_.isNone || r.high.isNone ||
    r.low.isNone || r.close.isNone || r.volume.isNone

/-- The grouping keys of the null-check query: the distinct
(ticker, date) pairs among incomplete rows.  SQLite GROUP BY treats NULL
keys as equal, which `Option` equality mirrors. -/
def nullKeys (rows : List Row) : List (Option String × Option Nat) :=
  ((rows.filter isIncomplete).map fun r => (r.ticker, r.date)).dedup

/-- The result set of the null-check query of clean_database.py
(lines 67-75): one entry per (ticker, date) group of incomplete rows,
carrying the group's COUNT(*). -/
def findIncompleteRecords (rows : List Row) :
    List ((Option String × Option Nat) × Nat) :=
  (nullKeys rows).map fun k =>
    (k, ((rows.filter isIncomplete).filter
          (fun r => (r.ticker, r.date) = k)).length)

/-- Failure of a store access or query (the `except Exception` arm around
each query in clean_database.py). -/
inductive StoreError
  | accessFailure
deriving DecidableEq, Repr

/-- `check_for_null_values` (clean_database.py lines 55-91).  The store
query either fails (`Except.error`) or yields the table rows; the
function returns `true` exactly when the query succeeded and the grouped
null-check result set is empty, and `false` both on dirty data and on a
store access error. -/
def check_for_null_values (store : Except StoreError (List Row)) : Bool :=
  match store with
  | .error _ => false
  | .ok rows => if (findIncompleteRecords rows).isEmpty then true else false

/-- `delete_ticker_data` (clean_database.py lines 17-53): counts the
rows of the ticker, deletes them, re-counts, and returns the new store
together with count-before minus count-after. -/
def delete_ticker_data (ticker : String) (db : List Row) :
    List Row × Nat :=
  let count_before := (db.filter (fun r => r.ticker = some ticker)).length
  let db' := db.filter (fun r => ¬ r.ticker = some ticker)
  let count_after := (db'.filter (fun r => r.ticker = some ticker)).length
  (db', count_before - count_after)

/-- A daily OHLCV record of one ticker, as consumed by the coverage
engine (all fields populated; the store's uniqueness invariant makes
dates distinct, but the engine does not rely on it). -/
structure PriceRecord where
  date : Nat
  open_ : Rat
  high : Rat
  low : Rat
  close : Rat
  volume : Int
deriving DecidableEq, Repr

/-- The derived per-ticker coverage report (db_stats.py lines 57-118,
analyze_db.py lines 37-86): first/last date, counts, span, the
expected-trading-day estimate, completeness ratio, windowed counts and
price/volume aggregates. -/
structure TickerCoverage where
  first_date : Nat
  last_date : Nat
  record_count : Nat
  span_days : Nat
  expected_trading_days : Nat
  completeness : Rat
  recent_count : Nat
  ytd_count : Nat
  avg_open : Rat
  avg_close : Rat
  max_high : Rat
  min_low : Rat
  total_volume : Int
  avg_volume : Rat
deriving DecidableEq, Repr

/-- Coverage requested for a ticker with zero records: the reference
code's MIN/MAX query yields NULL and the subsequent `strptime` raises. -/
inductive CoverageError
  | emptyInput
deriving DecidableEq, Repr

/-- The SQL `MIN(date)` aggregate over the rows `r :: rs` of one
ticker. -/
def minDateOf (r : PriceRecord) (rs : List PriceRecord) : Nat :=
  rs.foldl (fun a x => min a x.date) r.date

/-- The SQL `MAX(date)` aggregate over the rows `r :: rs` of one
ticker. -/
def maxDateOf (r : PriceRecord) (rs : List PriceRecord) : Nat :=
  rs.foldl (fun a x => max a x.date) r.date

/-- `years = date_range_days / 365.0; expected = int(years * 252)`
(db_stats.py lines 81-82, analyze_db.py lines 65-66); Python `int(...)`
truncates, which on this non-negative value is the floor. -/
def expectedTradingDays (date_range_days : Nat) : Nat :=
  (⌊((date_range_days : Rat) / 365) * 252⌋).toNat

/-- `record_count / expected_trading_days if expected_trading_days > 0
else 0` (db_stats.py line 83, analyze_db.py line 67). -/
def completenessOf (record_count expected_trading_days : Nat) : Rat :=
  if expected_trading_days > 0 then
    (record_count : Rat) / (expected_trading_days : Rat)
  else 0

/-- The per-ticker statistics block of `get_database_statistics`
(db_stats.py lines 57-118) and `analyze_database` (analyze_db.py lines
37-86), as the pure function `computeCoverage` of the spec.  `today` is
the injected current day index and `janFirst` the day index of January 1
of the current year; both stand for `datetime.now()`-derived cutoffs.
On an empty sequence the SQL MIN/MAX aggregates return NULL and the code
raises, modelled as `CoverageError.emptyInput`. -/
def computeCoverage (today janFirst : Nat) (records : List PriceRecord) :
    Except CoverageError TickerCoverage :=
  match records with
  | [] => .error .emptyInput
  | r :: rs =>
    let first_date := minDateOf r rs
    let last_date := maxDateOf r rs
    let record_count := (r :: rs).length
    let date_range_days := last_date - first_date
    let expected_trading_days := expectedTradingDays date_range_days
    let three_years_ago := today - 3 * 365
    let recent_count :=
      ((r :: rs).filter (fun x => three_years_ago ≤ x.date)).length
    let ytd_count := ((r :: rs).filter (fun x => janFirst ≤ x.date)).length
    let total_volume := (r :: rs).foldl (fun a x => a + x.volume) 0
    .ok
      { first_date := first_date
        last_date := last_date
        record_count := record_count
        span_days := date_range_days
        expected_trading_days := expected_trading_days
        completeness := completenessOf record_count expected_trading_days
        recent_count := recent_count
        ytd_count := ytd_count
        avg_open := ((r :: rs).foldl (fun a x => a + x.open_) 0) /
          (record_count : Rat)
        avg_close := ((r :: rs).foldl (fun a x => a + x.close) 0) /
          (record_count : Rat)
        max_high := rs.foldl (fun a x => max a x.high) r.high
        min_low := rs.foldl (fun a x => min a x.low) r.low
        total_volume := total_volume
        avg_volume := (total_volume : Rat) / (record_count : Rat) }

/-- The observable outcome of the HTTP GET issued by
`AlphaVantageAPI.get_daily_time_series` (fetch_data.py lines 64-67):
the request can fail at the network level, come back with an error
status (surfaced by `raise_for_status`), carry a body that is not valid
JSON, or carry a parsed JSON object, modelled as an association list of
fields. -/
inductive ApiResponse
  | networkError
  | httpErrorStatus (code : Nat)
  | malformedJson
  | jsonBody (fields : List (String × String))
deriving DecidableEq, Repr

/-- Whether a parsed JSON object carries the Alpha Vantage
`"Error Message"` key (the `if 'Error Message' in data` check,
fetch_data.py line 70). -/
def hasErrorMessage (fields : List (String × String)) : Bool :=
  fields.any (fun kv => kv.1 = "Error Message")

/-- `AlphaVantageAPI.get_daily_time_series` (fetch_data.py lines 43-84)
restricted to its response handling: every failure mode is caught at the
boundary and turned into `none`; only a well-formed body free of an
`"Error Message"` key is returned. -/
def get_daily_time_series (resp : ApiResponse) :
    Option (List (String × String)) :=
  match resp with
  | .networkError => none
  | .httpErrorStatus _ => none
  | .malformedJson => none
  | .jsonBody d => if hasErrorMessage d then none else some d

/-! ## Helper lemmas -/

theorem foldl_min_le_init {α : Type} [LinearOrder α] (l : List α) (a : α) :
    l.foldl min a ≤ a := by
  induction l generalizing a with
  | nil => exact le_refl a
  | cons b t ih => exact le_trans (ih (min a b)) (min_le_left a b)

theorem foldl_min_le_mem {α : Type} [LinearOrder α] (l : List α) (a x : α)
    (hx : x ∈ l) : l.foldl min a ≤ x := by
  induction l generalizing a with
  | nil => cases hx
  | cons b t ih =>
    rcases List.mem_cons.mp hx with h | h
    · subst h
      exact le_trans (foldl_min_le_init t (min a x)) (min_le_right a x)
    · exact ih (min a b) h

theorem foldl_min_mem {α : Type} [LinearOrder α] (l : List α) (a : α) :
    l.foldl min a = a ∨ l.foldl min a ∈ l := by
  induction l generalizing a with
  | nil => exact Or.inl rfl
  | cons b t ih =>
    rcases ih (min a b) with h | h
    · rcases min_choice a b with hm | hm
      · exact Or.inl (by rw [List.foldl_cons, h, hm])
      · exact Or.inr (List.mem_cons.mpr
          (Or.inl (by rw [List.foldl_cons, h, hm])))
    · exact Or.inr (List.mem_cons.mpr (Or.inr h))

theorem init_le_foldl_max {α : Type} [LinearOrder α] (l : List α) (a : α) :
    a ≤ l.foldl max a := by
  induction l generalizing a with
  | nil => exact le_refl a
  | cons b t ih => exact le_trans (le_max_left a b) (ih (max a b))

theorem mem_le_foldl_max {α : Type} [LinearOrder α] (l : List α) (a x : α)
    (hx : x ∈ l) : x ≤ l.foldl max a := by
  induction l generalizing a with
  | nil => cases hx
  | cons b t ih =>
    rcases List.mem_cons.mp hx with h | h
    · subst h
      exact le_trans (le_max_right a x) (init_le_foldl_max t (max a x))
    · exact ih (max a b) h

theorem foldl_max_mem {α : Type} [LinearOrder α] (l : List α) (a : α) :
    l.foldl max a = a ∨ l.foldl max a ∈ l := by
  induction l generalizing a with
  | nil => exact Or.inl rfl
  | cons b t ih =>
    rcases ih (max a b) with h | h
    · rcases max_choice a b with hm | hm
      · exact Or.inl (by rw [List.foldl_cons, h, hm])
      · exact Or.inr (List.mem_cons.mpr
          (Or.inl (by rw [List.foldl_cons, h, hm])))
    · exact Or.inr (List.mem_cons.mpr (Or.inr h))

/-- The exact-arithmetic floor `int(span/365.0*252)` coincides with the
natural-number division `span * 252 / 365`. -/
theorem expectedTradingDays_eq_div (s : Nat) :
    expectedTradingDays s = s * 252 / 365 := by
  unfold expectedTradingDays
  have h : ((s : Rat) / 365) * 252 = ((s * 252 : Nat) : Rat) /
      ((365 : Nat) : Rat) := by
    push_cast; ring
  rw [h, Int.floor_toNat, Nat.floor_div_nat, Nat.floor_natCast]

theorem minDateOf_mem (r : PriceRecord) (rs : List PriceRecord) :
    minDateOf r rs ∈ (r :: rs).map (fun x => x.date) := by
  unfold minDateOf
  rw [List.map_cons, ← List.foldl_map]
  rcases foldl_min_mem (rs.map (fun x => x.date)) r.date with h | h
  · rw [h]; exact List.mem_cons_self _ _
  · exact List.mem_cons_of_mem _ h

theorem minDateOf_le (r : PriceRecord) (rs : List PriceRecord) (d : Nat)
    (hd : d ∈ (r :: rs).map (fun x => x.date)) : minDateOf r rs ≤ d := by
  unfold minDateOf
  rw [← List.foldl_map]
  rw [List.map_cons] at hd
  rcases List.mem_cons.mp hd with h | h
  · subst h; exact foldl_min_le_init _ _
  · exact foldl_min_le_mem _ _ _ h

theorem maxDateOf_mem (r : PriceRecord) (rs : List PriceRecord) :
    maxDateOf r rs ∈ (r :: rs).map (fun x => x.date) := by
  unfold maxDateOf
  rw [List.map_cons, ← List.foldl_map]
  rcases foldl_max_mem (rs.map (fun x => x.date)) r.date with h | h
  · rw [h]; exact List.mem_cons_self _ _
  · exact List.mem_cons_of_mem _ h

theorem maxDateOf_ge (r : PriceRecord) (rs : List PriceRecord) (d : Nat)
    (hd : d ∈ (r :: rs).map (fun x => x.date)) : d ≤ maxDateOf r rs := by
  unfold maxDateOf
  rw [← List.foldl_map]
  rw [List.map_cons] at hd
  rcases List.mem_cons.mp hd with h | h
  · subst h; exact init_le_foldl_max _ _
  · exact mem_le_foldl_max _ _ _ h

theorem minDateOf_le_maxDateOf (r : PriceRecord) (rs : List PriceRecord) :
    minDateOf r rs ≤ maxDateOf r rs := by
  refine le_trans (minDateOf_le r rs r.date ?_) (maxDateOf_ge r rs r.date ?_) <;>
    exact List.mem_map.mpr ⟨r, List.mem_cons_self _ _, rfl⟩

theorem expectedTradingDays_zero : expectedTradingDays 0 = 0 := by
  simp [expectedTradingDays_eq_div]

theorem completenessOf_of_zero (n : Nat) : completenessOf n 0 = 0 := by
  simp [completenessOf]

theorem completenessOf_of_pos (n e : Nat) (he : 0 < e) :
    completenessOf n e = (n : Rat) / (e : Rat) := by
  simp [completenessOf, he]

/-- The null-check result set is empty exactly when every row has all
seven required fields populated (shared between the integrity-checker
claims). -/
theorem findIncompleteRecords_eq_nil_iff (rows : List Row) :
    findIncompleteRecords rows = [] ↔ ∀ r ∈ rows, isIncomplete r = false := by
  unfold findIncompleteRecords nullKeys
  rw [List.map_eq_nil_iff, List.dedup_eq_nil, List.map_eq_nil_iff,
    List.filter_eq_nil_iff]
  simp

/-! ## Claim theorems -/

/-- C5: `computeCoverage` fails with `EmptyInputError` when the supplied
record sequence for the ticker is empty. -/
theorem computeCoverage_empty_fails (today janFirst : Nat) :
    computeCoverage today janFirst [] = .error .emptyInput := rfl

/-- C6: for every non-empty record sequence, `first_date` is the minimum
date of the sequence, `last_date` the maximum, `first_date ≤ last_date`,
and `record_count ≥ 1`. -/
theorem computeCoverage_minmax (today janFirst : Nat)
    (records : List PriceRecord) (h : records ≠ []) :
    ∃ cov, computeCoverage today janFirst records = .ok cov ∧
      cov.first_date ∈ records.map (fun x => x.date) ∧
      (∀ d ∈ records.map (fun x => x.date), cov.first_date ≤ d) ∧
      cov.last_date ∈ records.map (fun x => x.date) ∧
      (∀ d ∈ records.map (fun x => x.date), d ≤ cov.last_date) ∧
      cov.first_date ≤ cov.last_date ∧ 1 ≤ cov.record_count := by
  match records with
  | [] => exact absurd rfl h
  | r :: rs =>
    refine ⟨_, rfl, ?_, ?_, ?_, ?_, ?_, ?_⟩
    · exact minDateOf_mem r rs
    · exact fun d hd => minDateOf_le r rs d hd
    · exact maxDateOf_mem r rs
    · exact fun d hd => maxDateOf_ge r rs d hd
    · exact minDateOf_le_maxDateOf r rs
    · show 1 ≤ (r :: rs).length
      simp

/-- Witness for C6 at a concrete two-record input. -/
theorem computeCoverage_minmax_witness :
    ∃ cov, computeCoverage 10 5
        [⟨5, 2, 3, 1, 2, 100⟩, ⟨9, 2, 3, 1, 2, 100⟩] = .ok cov ∧
      cov.first_date ∈ [⟨5, 2, 3, 1, 2, 100⟩,
        (⟨9, 2, 3, 1, 2, 100⟩ : PriceRecord)].map (fun x => x.date) ∧
      (∀ d ∈ [⟨5, 2, 3, 1, 2, 100⟩,
        (⟨9, 2, 3, 1, 2, 100⟩ : PriceRecord)].map (fun x => x.date),
        cov.first_date ≤ d) ∧
      cov.last_date ∈ [⟨5, 2, 3, 1, 2, 100⟩,
        (⟨9, 2, 3, 1, 2, 100⟩ : PriceRecord)].map (fun x => x.date) ∧
      (∀ d ∈ [⟨5, 2, 3, 1, 2, 100⟩,
        (⟨9, 2, 3, 1, 2, 100⟩ : PriceRecord)].map (fun x => x.date),
        d ≤ cov.last_date) ∧
      cov.first_date ≤ cov.last_date ∧ 1 ≤ cov.record_count :=
  computeCoverage_minmax 10 5 _ (List.cons_ne_nil _ _)

/-- C1: on every non-empty record sequence `computeCoverage` succeeds
(never raises a division error); when `expected_trading_days = 0` (which
holds whenever `span_days = 0`) the completeness field is the sentinel 0
via the conditional guard, and when `expected_trading_days > 0` it is
`record_count / expected_trading_days`. -/
theorem computeCoverage_completeness_guard (today janFirst : Nat)
    (records : List PriceRecord) (h : records ≠ []) :
    ∃ cov, computeCoverage today janFirst records = .ok cov ∧
      (cov.span_days = 0 → cov.expected_trading_days = 0) ∧
      (cov.expected_trading_days = 0 → cov.completeness = 0) ∧
      (0 < cov.expected_trading_days →
        cov.completeness =
          (cov.record_count : Rat) / (cov.expected_trading_days : Rat)) := by
  match records with
  | [] => exact absurd rfl h
  | r :: rs =>
    refine ⟨_, rfl, ?_, ?_, ?_⟩
    · intro h0
      have h0' : maxDateOf r rs - minDateOf r rs = 0 := h0
      show expectedTradingDays (maxDateOf r rs - minDateOf r rs) = 0
      rw [h0']
      exact expectedTradingDays_zero
    · intro h0
      have h0' : expectedTradingDays (maxDateOf r rs - minDateOf r rs) = 0 := h0
      show completenessOf (r :: rs).length
        (expectedTradingDays (maxDateOf r rs - minDateOf r rs)) = 0
      rw [h0']
      exact completenessOf_of_zero _
    · intro hp
      have hp' : 0 < expectedTradingDays (maxDateOf r rs - minDateOf r rs) := hp
      show completenessOf (r :: rs).length
          (expectedTradingDays (maxDateOf r rs - minDateOf r rs)) =
        ((r :: rs).length : Rat) /
          ((expectedTradingDays (maxDateOf r rs - minDateOf r rs) : Nat) : Rat)
      exact completenessOf_of_pos _ _ hp'

/-- Witness for C1 at a concrete one-record input. -/
theorem computeCoverage_completeness_guard_witness :
    ∃ cov, computeCoverage 10 5 [⟨5, 2, 3, 1, 2, 100⟩] = .ok cov ∧
      (cov.span_days = 0 → cov.expected_trading_days = 0) ∧
      (cov.expected_trading_days = 0 → cov.completeness = 0) ∧
      (0 < cov.expected_trading_days →
        cov.completeness =
          (cov.record_count : Rat) / (cov.expected_trading_days : Rat)) :=
  computeCoverage_completeness_guard 10 5 _ (List.cons_ne_nil _ _)

/-- C2: for every non-empty record sequence, `span_days` is the day
difference `last_date - first_date` (a single-record history yields 0),
and `expected_trading_days` is the floor of `(span_days / 365) × 252`,
that is, the natural-number quotient `span_days * 252 / 365`; in
particular `span_days = 0` forces `expected_trading_days = 0`. -/
theorem computeCoverage_expected_formula (today janFirst : Nat)
    (records : List PriceRecord) (h : records ≠ []) :
    ∃ cov, computeCoverage today janFirst records = .ok cov ∧
      cov.span_days = cov.last_date - cov.first_date ∧
      cov.expected_trading_days =
        (⌊((cov.span_days : Rat) / 365) * 252⌋).toNat ∧
      cov.expected_trading_days = cov.span_days * 252 / 365 ∧
      (records.length = 1 → cov.span_days = 0) ∧
      (cov.span_days = 0 → cov.expected_trading_days = 0) := by
  match records with
  | [] => exact absurd rfl h
  | r :: rs =>
    refine ⟨_, rfl, rfl, rfl, ?_, ?_, ?_⟩
    · exact expectedTradingDays_eq_div _
    · intro hlen
      have hrs : rs = [] := by
        cases rs with
        | nil => rfl
        | cons b t => simp at hlen
      subst hrs
      show maxDateOf r [] - minDateOf r [] = 0
      exact Nat.sub_self r.date
    · intro h0
      have h0' : maxDateOf r rs - minDateOf r rs = 0 := h0
      show expectedTradingDays (maxDateOf r rs - minDateOf r rs) = 0
      rw [h0']
      exact expectedTradingDays_zero

/-- Witness for C2 at a concrete one-record input. -/
theorem computeCoverage_expected_formula_witness :
    ∃ cov, computeCoverage 10 5 [⟨5, 2, 3, 1, 2, 100⟩] = .ok cov ∧
      cov.span_days = cov.last_date - cov.first_date ∧
      cov.expected_trading_days =
        (⌊((cov.span_days : Rat) / 365) * 252⌋).toNat ∧
      cov.expected_trading_days = cov.span_days * 252 / 365 ∧
      ([(⟨5, 2, 3, 1, 2, 100⟩ : PriceRecord)].length = 1 →
        cov.span_days = 0) ∧
      (cov.span_days = 0 → cov.expected_trading_days = 0) :=
  computeCoverage_expected_formula 10 5 _ (List.cons_ne_nil _ _)

/-- C7: for every non-empty record sequence and every injected clock
reference, the recent-window count and the year-to-date count are each
at most the total record count. -/
theorem computeCoverage_window_counts_le (today janFirst : Nat)
    (records : List PriceRecord) (h : records ≠ []) :
    ∃ cov, computeCoverage today janFirst records = .ok cov ∧
      cov.recent_count ≤ cov.record_count ∧
      cov.ytd_count ≤ cov.record_count := by
  match records with
  | [] => exact absurd rfl h
  | r :: rs =>
    refine ⟨_, rfl, ?_, ?_⟩ <;>
    · dsimp only
      exact List.length_filter_le _ _

/-- Witness for C7 at a concrete two-record input. -/
theorem computeCoverage_window_counts_le_witness :
    ∃ cov, computeCoverage 2000 1900
        [⟨5, 2, 3, 1, 2, 100⟩, ⟨1950, 2, 3, 1, 2, 100⟩] = .ok cov ∧
      cov.recent_count ≤ cov.record_count ∧
      cov.ytd_count ≤ cov.record_count :=
  computeCoverage_window_counts_le 2000 1900 _ (List.cons_ne_nil _ _)

/-- C10: the completeness ratio is not clamped to `[0, 1]`: on a
three-record history spanning two days the engine reports a completeness
strictly greater than 1. -/
theorem computeCoverage_not_clamped :
    ∃ cov, computeCoverage 3000 2900
        [⟨0, 1, 1, 1, 1, 1⟩, ⟨1, 1, 1, 1, 1, 1⟩, ⟨2, 1, 1, 1, 1, 1⟩] =
          .ok cov ∧
      cov.expected_trading_days < cov.record_count ∧
      1 < cov.completeness := by
  have hspan : maxDateOf (⟨0, 1, 1, 1, 1, 1⟩ : PriceRecord)
        [⟨1, 1, 1, 1, 1, 1⟩, ⟨2, 1, 1, 1, 1, 1⟩] -
      minDateOf (⟨0, 1, 1, 1, 1, 1⟩ : PriceRecord)
        [⟨1, 1, 1, 1, 1, 1⟩, ⟨2, 1, 1, 1, 1, 1⟩] = 2 := by
    decide
  have hexp : expectedTradingDays 2 = 1 := by
    rw [expectedTradingDays_eq_div]
  have hlen : ([⟨0, 1, 1, 1, 1, 1⟩, ⟨1, 1, 1, 1, 1, 1⟩,
      (⟨2, 1, 1, 1, 1, 1⟩ : PriceRecord)]).length = 3 := rfl
  refine ⟨_, rfl, ?_, ?_⟩
  · show expectedTradingDays
        (maxDateOf (⟨0, 1, 1, 1, 1, 1⟩ : PriceRecord)
            [⟨1, 1, 1, 1, 1, 1⟩, ⟨2, 1, 1, 1, 1, 1⟩] -
          minDateOf (⟨0, 1, 1, 1, 1, 1⟩ : PriceRecord)
            [⟨1, 1, 1, 1, 1, 1⟩, ⟨2, 1, 1, 1, 1, 1⟩]) <
      ([⟨0, 1, 1, 1, 1, 1⟩, ⟨1, 1, 1, 1, 1, 1⟩,
        (⟨2, 1, 1, 1, 1, 1⟩ : PriceRecord)]).length
    rw [hspan, hexp, hlen]
    norm_num
  · show (1 : Rat) < completenessOf
      ([⟨0, 1, 1, 1, 1, 1⟩, ⟨1, 1, 1, 1, 1, 1⟩,
        (⟨2, 1, 1, 1, 1, 1⟩ : PriceRecord)]).length
      (expectedTradingDays
        (maxDateOf (⟨0, 1, 1, 1, 1, 1⟩ : PriceRecord)
            [⟨1, 1, 1, 1, 1, 1⟩, ⟨2, 1, 1, 1, 1, 1⟩] -
          minDateOf (⟨0, 1, 1, 1, 1, 1⟩ : PriceRecord)
            [⟨1, 1, 1, 1, 1, 1⟩, ⟨2, 1, 1, 1, 1, 1⟩]))
    rw [hspan, hexp, hlen, completenessOf_of_pos 3 1 one_pos]
    norm_num

/-- C3: the null-check result is empty iff every record has all seven
required fields non-null; otherwise the incomplete records are grouped
by (ticker, date), each group reported once with its count. -/
theorem findIncompleteRecords_spec (rows : List Row) :
    (findIncompleteRecords rows = [] ↔
      ∀ r ∈ rows, isIncomplete r = false) ∧
    ((findIncompleteRecords rows).map Prod.fst).Nodup ∧
    (∀ p ∈ findIncompleteRecords rows,
      0 < p.2 ∧
      p.2 = (rows.filter
        (fun r => decide ((r.ticker, r.date) = p.1) &&
          isIncomplete r)).length) ∧
    (∀ r ∈ rows, isIncomplete r = true →
      ∃ p ∈ findIncompleteRecords rows, p.1 = (r.ticker, r.date)) := by
  refine ⟨findIncompleteRecords_eq_nil_iff rows, ?_, ?_, ?_⟩
  · have h2 : (findIncompleteRecords rows).map Prod.fst = nullKeys rows := by
      unfold findIncompleteRecords
      rw [List.map_map]
      exact List.map_id'' (fun _ => rfl) _
    rw [h2]
    unfold nullKeys
    exact List.nodup_dedup _
  · intro p hp
    unfold findIncompleteRecords at hp
    rcases List.mem_map.mp hp with ⟨k, hk, hpk⟩
    subst hpk
    have hk' : k ∈ (rows.filter isIncomplete).map
        fun r => (r.ticker, r.date) := by
      unfold nullKeys at hk
      exact List.mem_dedup.mp hk
    rcases List.mem_map.mp hk' with ⟨r, hr, hrk⟩
    constructor
    · show 0 < ((rows.filter isIncomplete).filter
        (fun x => (x.ticker, x.date) = k)).length
      exact List.length_pos_of_mem
        (List.mem_filter.mpr ⟨hr, by simp [hrk]⟩)
    · show ((rows.filter isIncomplete).filter
          (fun x => (x.ticker, x.date) = k)).length =
        (rows.filter (fun x => decide ((x.ticker, x.date) = k) &&
          isIncomplete x)).length
      rw [List.filter_filter]
  · intro r hr hinc
    have hkey : (r.ticker, r.date) ∈ nullKeys rows := by
      unfold nullKeys
      exact List.mem_dedup.mpr
        (List.mem_map.mpr ⟨r, List.mem_filter.mpr ⟨hr, hinc⟩, rfl⟩)
    exact ⟨_, List.mem_map.mpr ⟨_, hkey, rfl⟩, rfl⟩

/-- Witness for C3: a store with one row whose close is NULL yields an
entry for exactly that (ticker, date) pair. -/
theorem findIncompleteRecords_spec_witness :
    ∃ p ∈ findIncompleteRecords
      [⟨some "ABC", some 100, some 1, some 2, some 1, none, some 5⟩],
      p.1 = (some "ABC", some 100) :=
  (findIncompleteRecords_spec _).2.2.2 _ (List.mem_cons_self _ _) rfl

/-- C4: `delete_ticker_data` removes every record of the ticker, returns
the count of rows removed (count-before minus count-after), a second
call on the resulting store returns 0, and a call for a ticker with zero
existing records returns 0 without error. -/
theorem delete_ticker_data_spec (ticker : String) (db : List Row) :
    ((delete_ticker_data ticker db).1.filter
      (fun r => r.ticker = some ticker)).length = 0 ∧
    (delete_ticker_data ticker db).2 =
      (db.filter (fun r => r.ticker = some ticker)).length ∧
    (delete_ticker_data ticker ((delete_ticker_data ticker db).1)).2 = 0 ∧
    ((db.filter (fun r => r.ticker = some ticker)).length = 0 →
      (delete_ticker_data ticker db).2 = 0) := by
  have hnil : ∀ l : List Row,
      (l.filter (fun r => ¬ r.ticker = some ticker)).filter
        (fun r => r.ticker = some ticker) = [] := by
    intro l
    rw [List.filter_filter]
    apply List.filter_eq_nil_iff.mpr
    intro a _
    simp
  have hcount : (delete_ticker_data ticker db).2 =
      (db.filter (fun r => r.ticker = some ticker)).length := by
    show (db.filter (fun r => r.ticker = some ticker)).length -
      ((db.filter (fun r => ¬ r.ticker = some ticker)).filter
        (fun r => r.ticker = some ticker)).length =
      (db.filter (fun r => r.ticker = some ticker)).length
    rw [hnil]
    simp
  refine ⟨?_, hcount, ?_, ?_⟩
  · show ((db.filter (fun r => ¬ r.ticker = some ticker)).filter
      (fun r => r.ticker = some ticker)).length = 0
    rw [hnil]
    rfl
  · show ((db.filter (fun r => ¬ r.ticker = some ticker)).filter
        (fun r => r.ticker = some ticker)).length -
      (((db.filter (fun r => ¬ r.ticker = some ticker)).filter
          (fun r => ¬ r.ticker = some ticker)).filter
        (fun r => r.ticker = some ticker)).length = 0
    rw [hnil db]
    simp
  · intro h0
    rw [hcount, h0]

/-- Witness for C4: deleting a ticker absent from an empty store removes
nothing and reports 0. -/
theorem delete_ticker_data_spec_witness :
    ((([] : List Row).filter
      (fun r => r.ticker = some "AAPL")).length = 0) ∧
    (delete_ticker_data "AAPL" []).2 = 0 :=
  ⟨rfl, (delete_ticker_data_spec "AAPL" []).2.2.2 rfl⟩

/-- C8: every failure mode of the daily time-series fetch (network
error, HTTP error status, malformed JSON, or an API body carrying an
"Error Message" key) yields an absent result rather than raising. -/
theorem get_daily_time_series_failures (code : Nat)
    (d : List (String × String)) :
    get_daily_time_series .networkError = none ∧
    get_daily_time_series (.httpErrorStatus code) = none ∧
    get_daily_time_series .malformedJson = none ∧
    (hasErrorMessage d = true →
      get_daily_time_series (.jsonBody d) = none) := by
  refine ⟨rfl, rfl, rfl, fun hd => ?_⟩
  simp [get_daily_time_series, hd]

/-- Witness for C8: a body carrying the "Error Message" key is mapped
to `none`. -/
theorem get_daily_time_series_failures_witness :
    hasErrorMessage [("Error Message", "bad")] = true ∧
    get_daily_time_series (.jsonBody [("Error Message", "bad")]) = none :=
  ⟨by decide,
    (get_daily_time_series_failures 500 [("Error Message", "bad")]).2.2.2
      (by decide)⟩

/-- C9: `check_for_null_values` conflates failure modes: it returns
`false` both on a store access error and on dirty data, and returns
`true` exactly when the query succeeds and finds no null fields. -/
theorem check_for_null_values_conflates (e : StoreError) (rows : List Row) :
    check_for_null_values (.error e) = false ∧
    ((∃ r ∈ rows, isIncomplete r = true) →
      check_for_null_values (.ok rows) = false) ∧
    (check_for_null_values (.ok rows) = true ↔
      ∀ r ∈ rows, isIncomplete r = false) := by
  have hiff : check_for_null_values (.ok rows) = true ↔
      ∀ r ∈ rows, isIncomplete r = false := by
    rw [← findIncompleteRecords_eq_nil_iff rows, ← List.isEmpty_iff]
    unfold check_for_null_values
    cases h : (findIncompleteRecords rows).isEmpty with
    | false => simp [h]
    | true => simp [h]
  refine ⟨rfl, ?_, hiff⟩
  rintro ⟨r, hr, hinc⟩
  cases hcheck : check_for_null_values (.ok rows) with
  | false => rfl
  | true =>
    have hfalse := hiff.mp hcheck r hr
    rw [hinc] at hfalse
    simp at hfalse

/-- Witness for C9: a store error and a store holding one row with a
NULL close both map to `false`. -/
theorem check_for_null_values_conflates_witness :
    check_for_null_values (.error .accessFailure) = false ∧
    check_for_null_values
      (.ok [⟨some "ABC", some 100, some 1, some 2, some 1, none,
        some 5⟩]) = false := by
  have h := check_for_null_values_conflates .accessFailure
    [⟨some "ABC", some 100, some 1, some 2, some 1, none, some 5⟩]
  exact ⟨h.1, h.2.1 ⟨_, List.mem_cons_self _ _, rfl⟩⟩
